/-
Verification of the whisper-openai-server inference core against its
natural-language specification.

The Rust sources are shallowly embedded:
  * `src/formats.rs`         — `normalize_text`
  * `src/backend/whisper_rs.rs` — decode orchestration (`run_whisper_rs`,
    `extract_segments`, `looks_like_non_speech_only`, `is_parenthesized_event`,
    `transcript_score`), pool construction (`WhisperRsBackend.new`,
    `build_contexts`) and round-robin handle selection,
  * `src/model_store.rs`     — `ensure_model_ready`, locking and download.

The opaque whisper engine (`WhisperContext` / `WhisperState.full`) is modelled
as an oracle: a function from the call index and the decode parameters the
orchestrator sets (`FullParams`) to either an engine failure or a raw segment
table.  The filesystem and the network are modelled as explicit state /
environment records.  Rust `&str` operations are modelled at the character
level: Rust whitespace handling is modelled over the ASCII whitespace
characters recognised by `Char.isWhitespace`, which agrees with Rust on every
string appearing in the development.  `f64`/`f32` values that the orchestrator
merely passes through untouched (timestamps, sampling temperature, audio
samples) are carried as exact numbers (`Int` centiseconds as produced by
`whisper_rs`'s integer timestamps, `Rat` for temperature and samples); no
claim performs arithmetic on them.
-/
import Mathlib

set_option linter.unusedVariables false

deriving instance DecidableEq for Except

/-! ## Character-level string helpers (Rust `str` operations) -/

/-- Model of Rust `str::trim` on the character list: strip leading and
trailing whitespace. -/
def trimChars (l : List Char) : List Char :=
  ((l.dropWhile Char.isWhitespace).reverse.dropWhile Char.isWhitespace).reverse

/-- Model of Rust `str::trim` returning a `String`. -/
def rustTrim (s : String) : String :=
  ⟨trimChars s.data⟩

/-- Accumulating splitter behind Rust `str::split_whitespace`: splits a
character list into its maximal non-whitespace runs, discarding empties. -/
def wordsAux : List Char → List Char → List (List Char)
  | [], acc => if acc = [] then [] else [acc.reverse]
  | c :: cs, acc =>
    if c.isWhitespace then
      if acc = [] then wordsAux cs [] else acc.reverse :: wordsAux cs []
    else
      wordsAux cs (c :: acc)

/-- Model of Rust `Vec::join(" ")` on character lists: interleave a single
space between the pieces. -/
def joinSpaceChars : List (List Char) → List Char
  | [] => []
  | [t] => t
  | t :: rest => t ++ ' ' :: joinSpaceChars rest

/-- `src/formats.rs` `normalize_text`: collapse every whitespace run to a
single space (`raw.split_whitespace().collect::<Vec<_>>().join(" ")`). -/
def normalize_text (raw : String) : String :=
  ⟨joinSpaceChars (wordsAux raw.data [])⟩

/-- Model of the Rust `segments.iter().map(|s| s.text.as_str()).join(" ")`
joins used by `run_whisper_rs` and `transcript_score`. -/
def joinSpace (texts : List String) : String :=
  ⟨joinSpaceChars (texts.map String.data)⟩

/-! ## Decode orchestrator data model (`src/backend/mod.rs`) -/

/-- `TaskKind` from `src/backend/mod.rs`. -/
inductive TaskKind
  | transcribe
  | translate
deriving DecidableEq, Repr

/-- `TranscribeRequest` from `src/backend/mod.rs`.  Audio samples are `f32`
values that the orchestrator only forwards to the engine; they are carried as
exact rationals. -/
structure TranscribeRequest where
  task : TaskKind
  audio_16khz_mono_f32 : List Rat
  language : Option String
  prompt : Option String
  temperature : Option Rat
deriving DecidableEq, Repr

/-- `TranscriptSegment` from `src/backend/mod.rs`.  The source stores
`start_secs`/`end_secs` as `f64` seconds obtained from the engine's integer
centisecond timestamps via `* 0.01`; the embedding carries the exact
centisecond values (the claims never compute with them). -/
structure TranscriptSegment where
  startCs : Int
  endCs : Int
  text : String
deriving DecidableEq, Repr

/-- `TranscriptResult` from `src/backend/mod.rs`. -/
structure TranscriptResult where
  text : String
  language : Option String
  segments : List TranscriptSegment
deriving DecidableEq, Repr

/-! ## Decode parameters (`whisper_rs::FullParams` as set by the source) -/

/-- The decode options `run_whisper_rs` sets on a fresh
`FullParams::new` with greedy sampling and best_of 1.  A `none` /
`false` field means the corresponding setter was not called, leaving the
library default. -/
structure FullParams where
  noTimestamps : Bool
  printSpecial : Bool
  printProgress : Bool
  printRealtime : Bool
  printTimestamps : Bool
  maxInitialTs : Rat
  language : Option String
  detectLanguage : Bool
  initialPrompt : Option String
  temperature : Option Rat
  translate : Bool
  noSpeechThold : Option Rat
  suppressBlank : Option Bool
deriving DecidableEq, Repr

/-- The common settings every pass applies right after `FullParams::new`. -/
def FullParams.base : FullParams :=
  { noTimestamps := false
    printSpecial := false
    printProgress := false
    printRealtime := false
    printTimestamps := false
    maxInitialTs := 5
    language := none
    detectLanguage := false
    initialPrompt := none
    temperature := none
    translate := false
    noSpeechThold := none
    suppressBlank := none }

/-- Language policy of pass 1 and pass 3 (lines 173-180 / 252-259 of
`whisper_rs.rs`): pin the trimmed hint when it is non-empty, enable
auto-detection when no hint was supplied, and set neither when the hint is
present but trims to empty. -/
def applyLanguagePolicy (req : TranscribeRequest) (p : FullParams) : FullParams :=
  match req.language with
  | some language =>
    let trimmed := rustTrim language
    if trimmed ≠ "" then { p with language := some trimmed } else p
  | none => { p with detectLanguage := true }

/-- Prompt handling shared by all three passes (trimmed, skipped if empty). -/
def applyPrompt (req : TranscribeRequest) (p : FullParams) : FullParams :=
  match req.prompt with
  | some prompt =>
    let trimmed := rustTrim prompt
    if trimmed ≠ "" then { p with initialPrompt := some trimmed } else p
  | none => p

/-- Temperature handling shared by all three passes. -/
def applyTemperature (req : TranscribeRequest) (p : FullParams) : FullParams :=
  match req.temperature with
  | some temp => { p with temperature := some temp }
  | none => p

/-- Task handling shared by all three passes
(`set_translate(matches!(req.task, Translate))`). -/
def applyTask (req : TranscribeRequest) (p : FullParams) : FullParams :=
  { p with translate := req.task = TaskKind.translate }

/-- Decode options of pass 1 (`whisper_rs.rs` lines 166-190). -/
def primaryParams (req : TranscribeRequest) : FullParams :=
  applyTask req (applyTemperature req (applyPrompt req (applyLanguagePolicy req FullParams.base)))

/-- Decode options of pass 2 (`whisper_rs.rs` lines 203-220): language pinned
to `"en"`, prompt/temperature/task as in pass 1. -/
def fallbackParams (req : TranscribeRequest) : FullParams :=
  applyTask req (applyTemperature req (applyPrompt req
    { FullParams.base with language := some "en" }))

/-- Decode options of pass 3 (`whisper_rs.rs` lines 242-269): the pass-1
language policy plus `set_no_speech_thold(1.0)` and
`set_suppress_blank(false)`. -/
def aggressiveParams (req : TranscribeRequest) : FullParams :=
  applyTask req (applyTemperature req (applyPrompt req (applyLanguagePolicy req
    { FullParams.base with noSpeechThold := some 1, suppressBlank := some false })))

/-! ## Engine oracle and segment extraction -/

/-- One raw segment as read back from the whisper state: integer centisecond
timestamps and the (fallible) `to_str_lossy` text. -/
structure RawSegment where
  startTimestamp : Int
  endTimestamp : Int
  text : Except String String

/-- The whisper state observed after one successful `state.full` call:
`full_n_segments`, the per-index `get_segment` table, and
`full_lang_id_from_state`. -/
structure WhisperOutput where
  fullNSegments : Nat
  segmentAt : Nat → Option RawSegment
  langId : Int

/-- The opaque engine: `full i p audio` is the outcome of the `i`-th
`state.full` call of the request (0-based) when invoked with decode options
`p`, and `getLangStr` is `whisper_rs::get_lang_str`. -/
structure WhisperEngine where
  full : Nat → FullParams → List Rat → Except String WhisperOutput
  getLangStr : Int → Option String

/-- Loop body of `extract_segments` (`whisper_rs.rs` lines 321-347) over the
index list: skip missing segments, propagate `to_str_lossy` failures, trim
each text and drop segments whose trimmed text is empty. -/
def extractLoop (out : WhisperOutput) : List Nat → Except String (List TranscriptSegment)
  | [] => .ok []
  | i :: rest =>
    match out.segmentAt i with
    | none => extractLoop out rest
    | some seg =>
      match seg.text with
      | .error e => .error ("failed to read segment text: " ++ e)
      | .ok raw =>
        let t := rustTrim raw
        if t = "" then
          extractLoop out rest
        else
          (extractLoop out rest).map fun l =>
            ⟨seg.startTimestamp, seg.endTimestamp, t⟩ :: l

/-- `extract_segments` from `whisper_rs.rs`: returns `full_n_segments`
together with the filtered segment list. -/
def extract_segments (out : WhisperOutput) : Except String (Nat × List TranscriptSegment) :=
  (extractLoop out (List.range out.fullNSegments)).map fun l => (out.fullNSegments, l)

/-! ## Quality heuristics (`whisper_rs.rs` lines 349-370) -/

/-- Rust `str::starts_with(c)` with a character pattern. -/
def startsWithChar (s : String) (c : Char) : Bool :=
  match s.data with
  | [] => false
  | d :: _ => d = c

/-- Rust `str::ends_with(c)` with a character pattern. -/
def endsWithChar (s : String) (c : Char) : Bool :=
  match s.data.getLast? with
  | some d => d = c
  | none => false

/-- Rust `str::contains(c)` with a character pattern. -/
def containsChar (s : String) (c : Char) : Bool :=
  s.data.contains c

/-- `is_parenthesized_event`: the trimmed text starts with `(`, ends with `)`
and contains no space. -/
def is_parenthesized_event (text : String) : Bool :=
  let trimmed := rustTrim text
  startsWithChar trimmed '(' && endsWithChar trimmed ')' && !containsChar trimmed ' '

/-- `looks_like_non_speech_only`: non-empty and every segment text is a
parenthesized event. -/
def looks_like_non_speech_only (segments : List TranscriptSegment) : Bool :=
  !segments.isEmpty && segments.all fun seg => is_parenthesized_event seg.text

/-- `transcript_score`: Rust `String::len()` of the normalized joined text,
i.e. its length in UTF-8 bytes. -/
def transcript_score (segments : List TranscriptSegment) : Nat :=
  (normalize_text (joinSpace (segments.map TranscriptSegment.text))).utf8ByteSize

/-- Quality score as worded by the spec, for comparison with
`transcript_score`: the length in characters (not bytes) of the normalized
joined transcript text. -/
def spec_char_score (segments : List TranscriptSegment) : Nat :=
  (normalize_text (joinSpace (segments.map TranscriptSegment.text))).length

/-! ## The three-pass orchestrator (`run_whisper_rs`, lines 153-319)

The source is one straight-line function; the embedding names its stages so
that theorems can speak about "the run continues at pass 3 with these
segments".  `finalize` is lines 292-318, `passThree` lines 241-290 (with the
aggressive decode itself factored as `aggressiveStage`), `passTwo` lines
202-239, and `run_whisper_rs` glues them behind pass 1. -/

/-- Finalization: join and normalize the segment texts, echo a supplied
language hint verbatim or otherwise report the language detected by the last
executed decode pass (`state.full_lang_id_from_state`). -/
def finalize (engine : WhisperEngine) (req : TranscribeRequest)
    (segments : List TranscriptSegment) (lastOut : WhisperOutput) : TranscriptResult :=
  { text := normalize_text (joinSpace (segments.map TranscriptSegment.text))
    language :=
      match req.language with
      | some lang => some lang
      | none => engine.getLangStr lastOut.langId
    segments := segments }

/-- The aggressive decode of pass 3: run the engine with `aggressiveParams`
and keep the candidate only when its `transcript_score` is strictly greater
than the current best's. -/
def aggressiveStage (engine : WhisperEngine) (req : TranscribeRequest) (callIdx : Nat)
    (segments : List TranscriptSegment) : Except String TranscriptResult :=
  match engine.full callIdx (aggressiveParams req) req.audio_16khz_mono_f32 with
  | .error e => .error ("whisper aggressive fallback failed: " ++ e)
  | .ok out3 =>
    match extract_segments out3 with
    | .error e => .error e
    | .ok (c3, s3) =>
      if transcript_score segments < transcript_score s3 then
        .ok (finalize engine req s3 out3)
      else
        .ok (finalize engine req segments out3)

/-- Pass 3 gate: run the aggressive decode iff the current segments look like
non-speech-only output, else finalize directly. -/
def passThree (engine : WhisperEngine) (req : TranscribeRequest) (callIdx : Nat)
    (count : Nat) (segments : List TranscriptSegment) (lastOut : WhisperOutput) :
    Except String TranscriptResult :=
  if looks_like_non_speech_only segments then
    aggressiveStage engine req callIdx segments
  else
    .ok (finalize engine req segments lastOut)

/-- Pass 2: when pass 1 reported zero segments (`full_n_segments == 0`) and
the request carried no language hint, re-decode pinned to English; a
non-empty second result unconditionally replaces the first. -/
def passTwo (engine : WhisperEngine) (req : TranscribeRequest)
    (c1 : Nat) (s1 : List TranscriptSegment) (out1 : WhisperOutput) :
    Except String TranscriptResult :=
  if c1 = 0 ∧ req.language = none then
    match engine.full 1 (fallbackParams req) req.audio_16khz_mono_f32 with
    | .error e => .error ("whisper fallback inference failed: " ++ e)
    | .ok out2 =>
      match extract_segments out2 with
      | .error e => .error e
      | .ok (c2, s2) =>
        if 0 < c2 then
          passThree engine req 2 c2 s2 out2
        else
          passThree engine req 2 c1 s1 out2
  else
    passThree engine req 1 c1 s1 out1

/-- `run_whisper_rs`: pass 1 with the request-derived options, then the
fallback ladder. -/
def run_whisper_rs (engine : WhisperEngine) (req : TranscribeRequest) :
    Except String TranscriptResult :=
  match engine.full 0 (primaryParams req) req.audio_16khz_mono_f32 with
  | .error e => .error ("whisper inference failed: " ++ e)
  | .ok out1 =>
    match extract_segments out1 with
    | .error e => .error e
    | .ok (c1, s1) => passTwo engine req c1 s1 out1

/-! ## Handle pool (`WhisperRsBackend`, `src/backend/whisper_rs.rs` lines 22-151) -/

/-- `AccelerationKind` from `src/config.rs`. -/
inductive AccelerationKind
  | none
  | metal
  | cuda
deriving DecidableEq, Repr

/-- `AccelerationKind::as_str`. -/
def AccelerationKind.as_str : AccelerationKind → String
  | .none => "none"
  | .metal => "metal"
  | .cuda => "cuda"

/-- The `AppConfig` fields consumed by `model_store.rs` and
`backend/whisper_rs.rs`. -/
structure AppConfig where
  whisper_model : String
  whisper_model_explicit : Bool
  whisper_auto_download : Bool
  whisper_hf_repo : String
  whisper_hf_filename : String
  whisper_cache_dir : String
  hf_token : Option String
  whisper_parallelism : Nat
  acceleration_kind : AccelerationKind
  acceleration_explicit : Bool
deriving DecidableEq, Repr

/-- Oracle for `WhisperContext::new_with_params`: loading worker `i`'s model
instance under a given acceleration either succeeds or fails with a message.
A loaded context is represented by its worker index. -/
structure CtxEnv where
  load : AccelerationKind → Nat → Except String Unit

/-- Loop body of `build_contexts` over the worker indices: abort the whole
construction on the first failing load, naming the worker and acceleration. -/
def build_contexts_from (env : CtxEnv) (model_path : String)
    (acceleration : AccelerationKind) : List Nat → Except String (List Nat)
  | [] => .ok []
  | worker_idx :: rest =>
    match env.load acceleration worker_idx with
    | .error err =>
      .error ("failed to load model at " ++ model_path ++ " for worker " ++
        toString (worker_idx + 1) ++ " using acceleration=" ++
        acceleration.as_str ++ ": " ++ err)
    | .ok _ =>
      (build_contexts_from env model_path acceleration rest).map
        fun contexts => worker_idx :: contexts

/-- `build_contexts` (`whisper_rs.rs` lines 114-138). -/
def build_contexts (env : CtxEnv) (model_path : String) (whisper_parallelism : Nat)
    (acceleration : AccelerationKind) : Except String (List Nat) :=
  build_contexts_from env model_path acceleration (List.range whisper_parallelism)

/-- The modulus of the pool counter: `next_context_idx` is an
`AtomicUsize`, a 64-bit machine integer whose `fetch_add` wraps at
`2 ^ 64`. -/
def USIZE_MOD : Nat := 2 ^ 64

/-- The pool: model path, loaded contexts, and the atomic round-robin
counter.  The counter holds a `usize` value, kept below `USIZE_MOD` by the
wrapping increment in `acquire_next`. -/
structure WhisperRsBackend where
  model_path : String
  contexts : List Nat
  next_context_idx : Nat
deriving DecidableEq, Repr

/-- `WhisperRsBackend::new` (`whisper_rs.rs` lines 30-111): construction with
the configured acceleration, falling back to CPU only when the accelerated
mode was defaulted rather than explicitly pinned. -/
def WhisperRsBackend.new (env : CtxEnv) (cfg : AppConfig) :
    Except String WhisperRsBackend :=
  let model_path := cfg.whisper_model
  match cfg.acceleration_kind with
  | AccelerationKind.none =>
    match build_contexts env model_path cfg.whisper_parallelism AccelerationKind.none with
    | .error e => .error e
    | .ok contexts => .ok ⟨model_path, contexts, 0⟩
  | AccelerationKind.metal =>
    match build_contexts env model_path cfg.whisper_parallelism AccelerationKind.metal with
    | .ok contexts => .ok ⟨model_path, contexts, 0⟩
    | .error err =>
      if !cfg.acceleration_explicit then
        match build_contexts env model_path cfg.whisper_parallelism AccelerationKind.none with
        | .ok contexts => .ok ⟨model_path, contexts, 0⟩
        | .error cpu_err =>
          .error ("failed to initialize metal acceleration (" ++ err ++
            "); cpu fallback also failed: " ++ cpu_err)
      else
        .error ("failed to initialize whisper with metal acceleration: " ++ err)
  | AccelerationKind.cuda =>
    match build_contexts env model_path cfg.whisper_parallelism AccelerationKind.cuda with
    | .ok contexts => .ok ⟨model_path, contexts, 0⟩
    | .error err =>
      if !cfg.acceleration_explicit then
        match build_contexts env model_path cfg.whisper_parallelism AccelerationKind.none with
        | .ok contexts => .ok ⟨model_path, contexts, 0⟩
        | .error cpu_err =>
          .error ("failed to initialize cuda acceleration (" ++ err ++
            "); cpu fallback also failed: " ++ cpu_err)
      else
        .error ("failed to initialize whisper with cuda acceleration: " ++ err)

/-- The handle-selection step of `Transcriber::transcribe` (`whisper_rs.rs`
lines 144-145): `fetch_add(1)` returns the old counter value — used modulo
the pool size — and stores the incremented value wrapped at the `usize`
width. -/
def acquire_next (b : WhisperRsBackend) : Nat × WhisperRsBackend :=
  (b.next_context_idx % b.contexts.length,
   { b with next_context_idx := (b.next_context_idx + 1) % USIZE_MOD })

/-- The handle indices produced by `m` sequential `acquire_next` steps. -/
def acquireSeq : WhisperRsBackend → Nat → List Nat
  | _, 0 => []
  | b, m + 1 =>
    let step := acquire_next b
    step.1 :: acquireSeq step.2 m

/-! ## Model acquisition (`src/model_store.rs`)

The filesystem is a map from path to the size of the regular file stored
there (directories are not tracked: directory creation is modelled by the
`createDirOk` environment flag, and `fs::metadata` on a non-file path simply
reports absence).  The world is single-process and deterministic: only the
operations of the modelled attempt change it.  The network and the fallible
filesystem operations of the download are collected in `NetEnv`.  Error
messages are carried verbatim except that Rust's debug formatting of paths
is modelled without the surrounding quotes. -/

/-- Filesystem state: the size of the regular file at each path, if any. -/
structure FsState where
  files : String → Option Nat

/-- Write or overwrite the file entry at `p`. -/
def FsState.set (fs : FsState) (p : String) (v : Option Nat) : FsState :=
  ⟨fun q => if q = p then v else fs.files q⟩

/-- `fs::remove_file` (errors ignored by the caller, as in `LockGuard::drop`). -/
def removeFile (fs : FsState) (p : String) : FsState :=
  fs.set p none

/-- Outcome of the HTTP GET for the model: a transport failure or a status
code (2xx codes stream the body). -/
inductive HttpResponse
  | connError (msg : String)
  | status (code : Nat)
deriving DecidableEq, Repr

/-- Environment of one acquisition attempt: directory creation outcome, the
HTTP response, whether the temporary file could be created, how many bytes
the body stream wrote (`written`), whether the copy/flush completed, and
whether the final rename succeeded. -/
structure NetEnv where
  createDirOk : Bool
  response : HttpResponse
  createTmpOk : Bool
  written : Nat
  copyOk : Except String Unit
  renameOk : Bool

/-- `model_file_exists`: the path holds a regular file of non-zero size. -/
def model_file_exists (fs : FsState) (path : String) : Bool :=
  match fs.files path with
  | some n => decide (0 < n)
  | none => false

/-- `model_target_path`: the explicitly configured path, or
`cache_dir/filename` (`Path::join`). -/
def model_target_path (cfg : AppConfig) : String :=
  if cfg.whisper_model_explicit then cfg.whisper_model
  else ⟨cfg.whisper_cache_dir.data ++ '/' :: cfg.whisper_hf_filename.data⟩

/-- Final path component (Rust `Path::file_name`, modelled for paths whose
last component carries no trailing slash). -/
def nameOfChars (l : List Char) : List Char :=
  (l.reverse.takeWhile (fun c => c ≠ '/')).reverse

/-- Leading directory part, up to and including the last slash. -/
def dirOfChars (l : List Char) : List Char :=
  (l.reverse.dropWhile (fun c => c ≠ '/')).reverse

/-- `lock_path_for`: sibling file named after the target's file name (or
"model" when there is none) with the fixed `.lock` suffix appended. -/
def lockPathChars (t : List Char) : List Char :=
  dirOfChars t ++
    ((if nameOfChars t = [] then "model".data else nameOfChars t) ++ ".lock".data)

/-- `lock_path_for` on strings. -/
def lock_path_for (target : String) : String :=
  ⟨lockPathChars target.data⟩

/-- Drop the extension of a file name (Rust `Path` semantics: the part after
the last dot, provided the stem before it is non-empty). -/
def stripExtChars (name : List Char) : List Char :=
  let p := name.reverse.dropWhile (fun c => c ≠ '.')
  if p = [] then name
  else if p.tail = [] then name
  else p.tail.reverse

/-- Rust `Path::with_extension("part")`: replace the file name's extension
with `part` (a path without a file name is left unchanged). -/
def withExtensionPartChars (t : List Char) : List Char :=
  if nameOfChars t = [] then t
  else dirOfChars t ++ (stripExtChars (nameOfChars t) ++ ".part".data)

/-- `target_path.with_extension("part")` on strings. -/
def with_extension_part (target : String) : String :=
  ⟨withExtensionPartChars target.data⟩

/-- Rust `str::trim_matches('/')`. -/
def trimSlashChars (l : List Char) : List Char :=
  ((l.dropWhile (fun c => c = '/')).reverse.dropWhile (fun c => c = '/')).reverse

/-- `hf_resolve_url`. -/
def hf_resolve_url (repo filename : String) : String :=
  "https://huggingface.co/" ++ (⟨trimSlashChars repo.data⟩ : String) ++
    "/resolve/main/" ++ (⟨trimSlashChars filename.data⟩ : String)

/-- `acquire_lock`: repeatedly attempt create-only creation of the lock file;
`fuel` counts the remaining 250 ms polls before the 120 s timeout elapses
(the first attempt happens before any timeout check, as in the source).  The
pid line written into a freshly created lock file gives it a small non-zero
size, modelled as 1. -/
def acquire_lock (fs : FsState) (path : String) : Nat → Except String FsState
  | 0 =>
    match fs.files path with
    | some _ => .error ("timed out waiting for model download lock at " ++ path)
    | none => .ok (fs.set path (some 1))
  | fuel + 1 =>
    match fs.files path with
    | some _ => acquire_lock fs path fuel
    | none => .ok (fs.set path (some 1))

/-- The poll budget implied by `LOCK_TIMEOUT / LOCK_POLL_INTERVAL`
(120 s / 250 ms). -/
def LOCK_FUEL : Nat := 480

/-- `download_model_to_path` (`model_store.rs` lines 114-183): stream the
body into `target.with_extension("part")`, refuse an empty result, then
rename onto the target.  `net.written` is the number of body bytes the copy
managed to write (the full body when `copyOk` is `ok`). -/
def download_model_to_path (net : NetEnv) (cfg : AppConfig) (targetPath : String)
    (fs : FsState) : Except String Unit × FsState :=
  let url := hf_resolve_url cfg.whisper_hf_repo cfg.whisper_hf_filename
  match net.response with
  | .connError msg =>
    (.error ("failed to download model from " ++ url ++ ": " ++ msg ++
      "; check network connectivity"), fs)
  | .status code =>
    if 200 ≤ code ∧ code < 300 then
      let tmpPath := with_extension_part targetPath
      if net.createTmpOk then
        -- File::create truncates, then io::copy appends the streamed bytes.
        let fsWritten := fs.set tmpPath (some net.written)
        match net.copyOk with
        | .error e =>
          (.error ("failed writing downloaded model to " ++ tmpPath ++ ": " ++ e),
           fsWritten)
        | .ok _ =>
          if net.written = 0 then
            (.error ("downloaded empty model file from " ++ url ++
              "; refusing to continue"), removeFile fsWritten tmpPath)
          else if net.renameOk then
            (.ok (), (removeFile fsWritten tmpPath).set targetPath (some net.written))
          else
            (.error ("failed to move model from " ++ tmpPath ++ " to " ++ targetPath),
             fsWritten)
      else
        (.error ("failed to create temporary model file " ++ tmpPath), fs)
    else if code = 401 ∨ code = 403 then
      (.error ("Hugging Face rejected model download from " ++ url ++
        " with " ++ toString code ++ "; set HF_TOKEN for authenticated access"), fs)
    else if code = 404 then
      (.error ("model not found at " ++ url ++
        "; verify WHISPER_HF_REPO and WHISPER_HF_FILENAME"), fs)
    else
      (.error ("model download failed from " ++ url ++ " with HTTP status " ++
        toString code), fs)

/-- `ensure_model_ready` (`model_store.rs` lines 21-59).  The returned
config carries the possibly updated `whisper_model` path (the source mutates
`cfg` in place).  Every exit taken while the lock is held goes through
`removeFile` on the lock path, mirroring `LockGuard::drop`. -/
def ensure_model_ready (net : NetEnv) (fuel : Nat) (cfg : AppConfig) (fs : FsState) :
    Except String AppConfig × FsState :=
  if model_file_exists fs cfg.whisper_model then (.ok cfg, fs)
  else if !cfg.whisper_auto_download then
    (.error ("model file not found at " ++ cfg.whisper_model ++
      "; set WHISPER_MODEL to an existing file or enable WHISPER_AUTO_DOWNLOAD"), fs)
  else
    let target_path := model_target_path cfg
    if model_file_exists fs target_path then
      (.ok { cfg with whisper_model := target_path }, fs)
    else if !net.createDirOk then
      (.error "failed to create model cache directory", fs)
    else
      let lock_path := lock_path_for target_path
      match acquire_lock fs lock_path fuel with
      | .error e => (.error e, fs)
      | .ok fsLocked =>
        if model_file_exists fsLocked target_path then
          (.ok { cfg with whisper_model := target_path }, removeFile fsLocked lock_path)
        else
          match download_model_to_path net cfg target_path fsLocked with
          | (.error e, fs2) => (.error e, removeFile fs2 lock_path)
          | (.ok _, fs2) =>
            (.ok { cfg with whisper_model := target_path }, removeFile fs2 lock_path)

/-! ## Concrete fixtures used by witnesses and counterexamples -/

/-- Engine output with no segments at all. -/
def outEmpty : WhisperOutput :=
  ⟨0, fun _ => none, 7⟩

/-- Engine output with the single segment `"hi"`. -/
def outHi : WhisperOutput :=
  ⟨1, fun j => if j = 0 then some ⟨0, 100, .ok " hi "⟩ else none, 7⟩

/-- Engine output with the single segment `"(abc)"`. -/
def outParenAbc : WhisperOutput :=
  ⟨1, fun j => if j = 0 then some ⟨0, 100, .ok "(abc)"⟩ else none, 3⟩

/-- Engine output with the single segment `"ééé"` (3 characters, 6 UTF-8
bytes). -/
def outEee : WhisperOutput :=
  ⟨1, fun j => if j = 0 then some ⟨0, 100, .ok "ééé"⟩ else none, 3⟩

/-- Engine for the C1 witness: empty primary output, `"hi"` from the English
fallback. -/
def c1eng : WhisperEngine :=
  ⟨fun i _ _ => if i = 0 then .ok outEmpty else .ok outHi, fun _ => some "en"⟩

/-- Request without a language hint. -/
def c1req : TranscribeRequest :=
  ⟨TaskKind.transcribe, [], none, none, none⟩

/-- Engine for the C3 counterexample: bracketed primary output, then an
aggressive candidate whose UTF-8 byte count beats the primary while its
character count does not. -/
def c3eng : WhisperEngine :=
  ⟨fun i _ _ => if i = 0 then .ok outParenAbc else .ok outEee, fun _ => none⟩

/-- Request with the language hint `"zz"` (suppresses pass 2). -/
def c3req : TranscribeRequest :=
  ⟨TaskKind.transcribe, [], some "zz", none, none⟩

/-- Engine for the C3 witness: bracketed primary output, aggressive candidate
`"hi"` with equal byte score `(ok)` is kept?  The witness uses the
strictly-smaller candidate so the earlier result is retained. -/
def c3weng : WhisperEngine :=
  ⟨fun i _ _ => if i = 0 then .ok outParenAbc else .ok outHi, fun _ => none⟩

/-- Dummy engine whose calls all fail (used where only parameters matter). -/
def c2eng : WhisperEngine :=
  ⟨fun _ _ _ => .error "unused", fun _ => none⟩

/-- Request used by the C2 and C9 witnesses. -/
def c2req : TranscribeRequest :=
  ⟨TaskKind.transcribe, [], some "en", none, none⟩

/-- Segment list in which every text is a bracketed event. -/
def segsApplause : List TranscriptSegment :=
  [⟨0, 150, "(applause)"⟩, ⟨150, 300, "(applause)"⟩]

/-- Segment list mixing one normal word and one bracketed event. -/
def segsMixed : List TranscriptSegment :=
  [⟨0, 150, "hello"⟩, ⟨150, 300, "(applause)"⟩]

/-- Config pointing at an explicitly configured model path. -/
def cfgExplicit : AppConfig :=
  { whisper_model := "/cache/model.bin"
    whisper_model_explicit := true
    whisper_auto_download := true
    whisper_hf_repo := "ggerganov/whisper.cpp"
    whisper_hf_filename := "ggml-small.bin"
    whisper_cache_dir := "/cache"
    hf_token := none
    whisper_parallelism := 2
    acceleration_kind := AccelerationKind.none
    acceleration_explicit := false }

/-- Empty filesystem. -/
def fsEmpty : FsState :=
  ⟨fun _ => none⟩

/-- Filesystem in which a foreign process already holds the lock for
`cfgExplicit`'s target. -/
def fsForeignLock : FsState :=
  ⟨fun p => if p = "/cache/model.bin.lock" then some 1 else none⟩

/-- Filesystem already containing `cfgExplicit`'s model file. -/
def fsWithModel : FsState :=
  ⟨fun p => if p = "/cache/model.bin" then some 9 else none⟩

/-- Environment for a fully successful download of 9 bytes. -/
def netOk : NetEnv :=
  { createDirOk := true
    response := HttpResponse.status 200
    createTmpOk := true
    written := 9
    copyOk := .ok ()
    renameOk := true }

/-- Environment whose body copy fails after writing 5 bytes. -/
def netCopyFail : NetEnv :=
  { createDirOk := true
    response := HttpResponse.status 200
    createTmpOk := true
    written := 5
    copyOk := .error "connection reset"
    renameOk := true }

/-- Loader that fails under any acceleration but succeeds on CPU. -/
def envAccelFails : CtxEnv :=
  ⟨fun accel _ => if accel = AccelerationKind.none then .ok () else .error "no gpu"⟩

/-- Loader that fails on every load. -/
def envAllFail : CtxEnv :=
  ⟨fun _ _ => .error "no backend"⟩

/-- Config requesting defaulted (non-explicit) metal acceleration. -/
def cfgMetalDefaulted : AppConfig :=
  { cfgExplicit with acceleration_kind := AccelerationKind.metal }

/-- Config where metal acceleration was explicitly pinned. -/
def cfgMetalExplicit : AppConfig :=
  { cfgExplicit with
    acceleration_kind := AccelerationKind.metal
    acceleration_explicit := true }

/-- A three-handle pool with a fresh counter. -/
def pool3 : WhisperRsBackend :=
  ⟨"/cache/model.bin", [0, 1, 2], 0⟩

/-- Engine for the C10 witness: the request carries a whitespace-only
language hint. -/
def c10req : TranscribeRequest :=
  ⟨TaskKind.transcribe, [], some "  ", none, none⟩

/-- Engine used by the C10 witness: primary produces `"hi"`. -/
def c10eng : WhisperEngine :=
  ⟨fun i _ _ => if i = 0 then .ok outHi else .error "not called", fun _ => some "de"⟩

/-- Engine for the C9 witness: primary call succeeds with `"hi"`, later calls
succeed with an empty table. -/
def c9eng : WhisperEngine :=
  ⟨fun i _ _ => if i = 0 then .ok outHi else .ok outEmpty, fun _ => some "en"⟩

/-! ## Basic filesystem and path lemmas -/

theorem set_same (fs : FsState) (p : String) (v : Option Nat) :
    (fs.set p v).files p = v := by
  simp [FsState.set]

theorem set_other (fs : FsState) {p q : String} (v : Option Nat) (h : q ≠ p) :
    (fs.set p v).files q = fs.files q := by
  simp [FsState.set, h]

theorem removeFile_same (fs : FsState) (p : String) :
    (removeFile fs p).files p = none := by
  simp [removeFile, FsState.set]

theorem removeFile_other (fs : FsState) {p q : String} (h : q ≠ p) :
    (removeFile fs p).files q = fs.files q := by
  simp [removeFile, FsState.set, h]

theorem dirOf_append_nameOf (l : List Char) : dirOfChars l ++ nameOfChars l = l := by
  unfold dirOfChars nameOfChars
  rw [← List.reverse_append, List.takeWhile_append_dropWhile, List.reverse_reverse]

theorem lock_path_ne (t : String) : lock_path_for t ≠ t := by
  intro h
  have hd : lockPathChars t.data = t.data := congrArg String.data h
  have hlen := congrArg List.length hd
  have hsplit : (dirOfChars t.data).length + (nameOfChars t.data).length = t.data.length := by
    conv_rhs => rw [← dirOf_append_nameOf t.data]
    rw [List.length_append]
  simp only [lockPathChars, List.length_append] at hlen
  by_cases hn : nameOfChars t.data = []
  · rw [if_pos hn] at hlen
    rw [hn] at hsplit
    simp at hlen hsplit
    omega
  · rw [if_neg hn] at hlen
    simp at hlen hsplit
    omega

theorem acquire_lock_of_free (fs : FsState) (path : String) (fuel : Nat)
    (h : fs.files path = none) :
    acquire_lock fs path fuel = .ok (fs.set path (some 1)) := by
  cases fuel <;> simp [acquire_lock, h]

theorem acquire_lock_of_held (fs : FsState) (path : String) (fuel : Nat) (n : Nat)
    (h : fs.files path = some n) :
    acquire_lock fs path fuel =
      .error ("timed out waiting for model download lock at " ++ path) := by
  induction fuel with
  | zero => simp [acquire_lock, h]
  | succ fuel ih => simp [acquire_lock, h, ih]

theorem acquire_lock_ok {fs : FsState} {path : String} {fuel : Nat} {fs' : FsState}
    (h : acquire_lock fs path fuel = .ok fs') :
    fs' = fs.set path (some 1) ∧ fs.files path = none := by
  cases hf : fs.files path with
  | none =>
    rw [acquire_lock_of_free fs path fuel hf] at h
    exact ⟨(Except.ok.inj h).symm, rfl⟩
  | some n =>
    rw [acquire_lock_of_held fs path fuel n hf] at h
    cases h

/-! ## C8: pool round-robin -/

theorem acquireSeq_formula (m : Nat) :
    ∀ b : WhisperRsBackend, b.next_context_idx < USIZE_MOD →
      acquireSeq b m =
        (List.range m).map fun i =>
          ((b.next_context_idx + i) % USIZE_MOD) % b.contexts.length := by
  induction m with
  | zero =>
    intro b hc
    simp [acquireSeq]
  | succ m ih =>
    intro b hc
    have hM : 0 < USIZE_MOD := by norm_num [USIZE_MOD]
    have step : acquireSeq b (m + 1) =
        (b.next_context_idx % b.contexts.length) ::
          acquireSeq ⟨b.model_path, b.contexts,
            (b.next_context_idx + 1) % USIZE_MOD⟩ m := rfl
    rw [step, ih _ (Nat.mod_lt _ hM), List.range_succ_eq_map, List.map_cons,
      List.map_map]
    refine congrArg₂ List.cons ?_ ?_
    · rw [Nat.add_zero, Nat.mod_eq_of_lt hc]
    · refine List.map_congr_left ?_
      intro i hi
      show (((b.next_context_idx + 1) % USIZE_MOD + i) % USIZE_MOD) %
            b.contexts.length
          = ((b.next_context_idx + Nat.succ i) % USIZE_MOD) % b.contexts.length
      rw [Nat.mod_add_mod]
      have harg : b.next_context_idx + 1 + i = b.next_context_idx + Nat.succ i := by
        omega
      rw [harg]

/-- C8 (amended): for a pool of size N and a fresh counter, each of the
first M sequential handle acquisitions, for any M up to the 2^64 counter
wrap, returns index i % N for i = 0, 1, ..., i.e. the round-robin sequence
0, 1, ..., N-1, 0, 1, ...; each index is the fetched (wrapped) counter value
modulo N. -/
theorem pool_round_robin (b : WhisperRsBackend) (m : Nat)
    (hN : 0 < b.contexts.length) (h0 : b.next_context_idx = 0)
    (hm : m ≤ USIZE_MOD) :
    acquireSeq b m = (List.range m).map fun i => i % b.contexts.length := by
  rw [acquireSeq_formula m b (by rw [h0]; norm_num [USIZE_MOD]), h0]
  refine List.map_congr_left ?_
  intro i hi
  rw [Nat.zero_add, Nat.mod_eq_of_lt (lt_of_lt_of_le (List.mem_range.mp hi) hm)]

/-- Witness for C8: a pool of three handles serves seven sequential
acquisitions as 0,1,2,0,1,2,0. -/
theorem pool_round_robin_witness :
    acquireSeq pool3 7 = (List.range 7).map fun i => i % pool3.contexts.length :=
  pool_round_robin pool3 7 (by decide) (by decide) (by norm_num [USIZE_MOD])

/-- Counterexample for C8 as stated: the counter is a 64-bit usize whose
fetch-and-increment wraps at 2^64, so past the wrap the unbounded
round-robin pattern breaks for a pool of 3 handles — the acquisition whose
counter has run through 2^64 steps returns index 0 (the counter wrapped back
to 0) where the unbounded reading predicts 2^64 % 3 = 1. -/
theorem pool_round_robin_cex :
    acquireSeq pool3 (2 ^ 64 + 1) ≠
      (List.range (2 ^ 64 + 1)).map (fun i => i % pool3.contexts.length) ∧
    2 ^ 64 % 3 = 1 ∧ (0 + 2 ^ 64) % USIZE_MOD % 3 = 0 ∧
    pool3.contexts.length = 3 := by
  refine ⟨?_, by norm_num, by norm_num [USIZE_MOD], by decide⟩
  intro h
  have hl := congrArg List.getLast? h
  rw [acquireSeq_formula _ pool3 (by norm_num [pool3, USIZE_MOD])] at hl
  rw [List.range_succ, List.map_append, List.map_append] at hl
  simp only [List.map_cons, List.map_nil] at hl
  rw [List.getLast?_concat, List.getLast?_concat] at hl
  norm_num [pool3, USIZE_MOD] at hl

/-! ## C7: accelerator fallback policy -/

/-- C7: with a defaulted (non-explicit) accelerated mode, a failed
accelerated construction is retried fully with acceleration disabled and, if
the retry succeeds, the caller sees plain success; with an explicitly pinned
accelerated mode the same failure is fatal with no fallback; and when the
CPU retry also fails, the returned error message chains both causes. -/
theorem accelerator_fallback (env : CtxEnv) (cfg : AppConfig) (err : String)
    (hacc : cfg.acceleration_kind ≠ AccelerationKind.none) :
    (cfg.acceleration_explicit = false →
      ∀ contexts,
        build_contexts env cfg.whisper_model cfg.whisper_parallelism
          cfg.acceleration_kind = .error err →
        build_contexts env cfg.whisper_model cfg.whisper_parallelism
          AccelerationKind.none = .ok contexts →
        WhisperRsBackend.new env cfg = .ok ⟨cfg.whisper_model, contexts, 0⟩) ∧
    (cfg.acceleration_explicit = true →
      build_contexts env cfg.whisper_model cfg.whisper_parallelism
        cfg.acceleration_kind = .error err →
      WhisperRsBackend.new env cfg =
        .error ("failed to initialize whisper with " ++ cfg.acceleration_kind.as_str ++
          " acceleration: " ++ err)) ∧
    (cfg.acceleration_explicit = false →
      ∀ cpu_err,
        build_contexts env cfg.whisper_model cfg.whisper_parallelism
          cfg.acceleration_kind = .error err →
        build_contexts env cfg.whisper_model cfg.whisper_parallelism
          AccelerationKind.none = .error cpu_err →
        WhisperRsBackend.new env cfg =
          .error ("failed to initialize " ++ cfg.acceleration_kind.as_str ++
            " acceleration (" ++ err ++ "); cpu fallback also failed: " ++ cpu_err)) := by
  cases hk : cfg.acceleration_kind with
  | none => exact absurd hk hacc
  | metal =>
    refine ⟨?_, ?_, ?_⟩
    · intro hexp contexts hfail hcpu
      simp [WhisperRsBackend.new, hk, hfail, hcpu, hexp]
    · intro hexp hfail
      simp [WhisperRsBackend.new, hk, hfail, hexp, AccelerationKind.as_str]
    · intro hexp cpu_err hfail hcpu
      simp [WhisperRsBackend.new, hk, hfail, hcpu, hexp, AccelerationKind.as_str]
  | cuda =>
    refine ⟨?_, ?_, ?_⟩
    · intro hexp contexts hfail hcpu
      simp [WhisperRsBackend.new, hk, hfail, hcpu, hexp]
    · intro hexp hfail
      simp [WhisperRsBackend.new, hk, hfail, hexp, AccelerationKind.as_str]
    · intro hexp cpu_err hfail hcpu
      simp [WhisperRsBackend.new, hk, hfail, hcpu, hexp, AccelerationKind.as_str]

/-- Witness for C7: a defaulted-metal config whose metal loads fail and
whose CPU loads succeed constructs a two-handle CPU pool silently. -/
theorem accelerator_fallback_witness :
    WhisperRsBackend.new envAccelFails cfgMetalDefaulted =
      .ok ⟨cfgMetalDefaulted.whisper_model, [0, 1], 0⟩ :=
  (accelerator_fallback envAccelFails cfgMetalDefaulted
      ("failed to load model at /cache/model.bin for worker 1 using acceleration=metal: no gpu")
      (by decide)).1 (by decide) [0, 1] (by decide) (by decide)

/-! ## C2: the non-speech-only trigger for the aggressive pass -/

/-- C2: the aggressive third pass is gated exactly on the current segment
list being non-empty with every trimmed text parenthesized without interior
space; an all-"(applause)" list triggers it, a mixed list does not; the gate
taken decides whether the aggressive decode or plain finalization runs. -/
theorem non_speech_trigger (segs : List TranscriptSegment) :
    (looks_like_non_speech_only segs = true ↔
      segs ≠ [] ∧ ∀ s ∈ segs,
        startsWithChar (rustTrim s.text) '(' = true ∧
        endsWithChar (rustTrim s.text) ')' = true ∧
        containsChar (rustTrim s.text) ' ' = false) ∧
    looks_like_non_speech_only segsApplause = true ∧
    looks_like_non_speech_only segsMixed = false ∧
    (∀ engine req callIdx count lastOut,
      looks_like_non_speech_only segs = true →
      passThree engine req callIdx count segs lastOut =
        aggressiveStage engine req callIdx segs) ∧
    (∀ engine req callIdx count lastOut,
      looks_like_non_speech_only segs = false →
      passThree engine req callIdx count segs lastOut =
        .ok (finalize engine req segs lastOut)) := by
  refine ⟨?_, by decide, by decide, ?_, ?_⟩
  · simp [looks_like_non_speech_only, is_parenthesized_event, List.all_eq_true,
      Bool.and_eq_true, Bool.not_eq_true', List.isEmpty_eq_false, and_assoc]
  · intro engine req callIdx count lastOut h
    simp [passThree, h]
  · intro engine req callIdx count lastOut h
    simp [passThree, h]

/-- Witness for C2: the all-"(applause)" list evaluates the trigger to true,
and on the mixed list the third-pass gate finalizes directly. -/
theorem non_speech_trigger_witness :
    looks_like_non_speech_only segsApplause = true ∧
    passThree c2eng c2req 1 2 segsMixed outHi = .ok (finalize c2eng c2req segsMixed outHi) :=
  ⟨(non_speech_trigger segsApplause).2.1,
   (non_speech_trigger segsMixed).2.2.2.2 c2eng c2req 1 2 outHi (by decide)⟩

/-! ## C4: lock file cleanup -/

theorem ensure_lock_final (net : NetEnv) (fuel : Nat) (cfg : AppConfig) (fs : FsState) :
    ((ensure_model_ready net fuel cfg fs).2).files
        (lock_path_for (model_target_path cfg)) = none ∨
      (ensure_model_ready net fuel cfg fs).2 = fs := by
  simp only [ensure_model_ready]
  split
  · exact Or.inr rfl
  · split
    · exact Or.inr rfl
    · split
      · exact Or.inr rfl
      · split
        · exact Or.inr rfl
        · split
          · exact Or.inr rfl
          · split
            · exact Or.inl (removeFile_same _ _)
            · split
              · exact Or.inl (removeFile_same _ _)
              · exact Or.inl (removeFile_same _ _)

/-- C4 (amended): an acquisition attempt never leaves behind a lock file of
its own making — if the lock path was unoccupied when the attempt started,
it is unoccupied when the attempt ends, success or failure; and in general
the attempt's final state leaves the lock path either unoccupied or exactly
as it found it (a timed-out attempt leaves the foreign lock file in place). -/
theorem lock_file_cleanup (net : NetEnv) (fuel : Nat) (cfg : AppConfig) (fs : FsState) :
    (fs.files (lock_path_for (model_target_path cfg)) = none →
      ((ensure_model_ready net fuel cfg fs).2).files
        (lock_path_for (model_target_path cfg)) = none) ∧
    (((ensure_model_ready net fuel cfg fs).2).files
        (lock_path_for (model_target_path cfg)) = none ∨
      ((ensure_model_ready net fuel cfg fs).2).files
        (lock_path_for (model_target_path cfg)) =
        fs.files (lock_path_for (model_target_path cfg))) := by
  rcases ensure_lock_final net fuel cfg fs with h | h
  · exact ⟨fun _ => h, Or.inl h⟩
  · rw [h]
    exact ⟨fun hn => hn, Or.inr rfl⟩

/-- Witness for C4: on an empty filesystem the successful download attempt
ends with no lock file at the derived sibling path. -/
theorem lock_file_cleanup_witness :
    ((ensure_model_ready netOk 480 cfgExplicit fsEmpty).2).files
      (lock_path_for (model_target_path cfgExplicit)) = none :=
  (lock_file_cleanup netOk 480 cfgExplicit fsEmpty).1 (by decide)

/-- Counterexample for C4 as stated: when a foreign process already holds
the lock, the attempt reaches the locking step, fails with the lock timeout,
and the lock file at the derived sibling path still exists after the
attempt's scope ends. -/
theorem lock_file_cleanup_cex :
    (ensure_model_ready netOk LOCK_FUEL cfgExplicit fsForeignLock).1 =
      .error "timed out waiting for model download lock at /cache/model.bin.lock" ∧
    ((ensure_model_ready netOk LOCK_FUEL cfgExplicit fsForeignLock).2).files
      (lock_path_for (model_target_path cfgExplicit)) = some 1 := by
  exact ⟨by decide, by decide⟩

/-! ## Download lemmas shared by C5 and C6 -/

theorem download_ok_installs {net : NetEnv} {cfg : AppConfig} {target : String}
    {fs : FsState} (h : (download_model_to_path net cfg target fs).1 = .ok ()) :
    (download_model_to_path net cfg target fs).2.files target = some net.written ∧
      net.written ≠ 0 := by
  obtain ⟨cd, resp, ct, w, co, rn⟩ := net
  unfold download_model_to_path at h ⊢
  cases resp with
  | connError m => simp at h
  | status code =>
    by_cases hs : 200 ≤ code ∧ code < 300
    · by_cases hct : ct = true
      · cases co with
        | error e => simp [hs, hct] at h
        | ok u =>
          by_cases hw : w = 0
          · simp [hs, hct, hw] at h
          · by_cases hrn : rn = true
            · refine ⟨?_, hw⟩
              simp [hs, hct, hw, hrn, set_same]
            · simp [hs, hct, hw, hrn] at h
      · simp [hs, hct] at h
    · by_cases h4 : code = 401 ∨ code = 403
      · simp [hs, h4] at h
      · by_cases h44 : code = 404 <;> simp [hs, h4, h44] at h

theorem download_error_target {net : NetEnv} {cfg : AppConfig} {target : String}
    {fs : FsState} (htmp : with_extension_part target ≠ target) (e : String)
    (h : (download_model_to_path net cfg target fs).1 = .error e) :
    (download_model_to_path net cfg target fs).2.files target = fs.files target := by
  have ht : target ≠ with_extension_part target := Ne.symm htmp
  obtain ⟨cd, resp, ct, w, co, rn⟩ := net
  unfold download_model_to_path at h ⊢
  cases resp with
  | connError m => rfl
  | status code =>
    by_cases hs : 200 ≤ code ∧ code < 300
    · by_cases hct : ct = true
      · cases co with
        | error e2 => simp [hs, hct, FsState.set, ht]
        | ok u =>
          by_cases hw : w = 0
          · simp [hs, hct, hw, removeFile, FsState.set, ht]
          · by_cases hrn : rn = true
            · simp [hs, hct, hw, hrn] at h
            · simp [hs, hct, hw, hrn, FsState.set, ht]
      · simp [hs, hct]
    · by_cases h4 : code = 401 ∨ code = 403
      · simp [hs, h4]
      · by_cases h44 : code = 404 <;> simp [hs, h4, h44]

theorem download_touches (net : NetEnv) (cfg : AppConfig) (target : String)
    (fs : FsState) (p : String) (hp1 : p ≠ with_extension_part target)
    (hp2 : p ≠ target) :
    (download_model_to_path net cfg target fs).2.files p = fs.files p := by
  obtain ⟨cd, resp, ct, w, co, rn⟩ := net
  unfold download_model_to_path
  cases resp with
  | connError m => rfl
  | status code =>
    by_cases hs : 200 ≤ code ∧ code < 300
    · by_cases hct : ct = true
      · cases co with
        | error e => simp [hs, hct, FsState.set, hp1]
        | ok u =>
          by_cases hw : w = 0
          · simp [hs, hct, hw, removeFile, FsState.set, hp1]
          · by_cases hrn : rn = true
            · simp [hs, hct, hw, hrn, removeFile, FsState.set, hp1, hp2]
            · simp [hs, hct, hw, hrn, FsState.set, hp1]
      · simp [hs, hct]
    · by_cases h4 : code = 401 ∨ code = 403
      · simp [hs, h4]
      · by_cases h44 : code = 404 <;> simp [hs, h4, h44]

theorem download_ok_tmp_removed {net : NetEnv} {cfg : AppConfig} {target : String}
    {fs : FsState} (htmp : with_extension_part target ≠ target)
    (h : (download_model_to_path net cfg target fs).1 = .ok ()) :
    (download_model_to_path net cfg target fs).2.files (with_extension_part target) = none := by
  obtain ⟨cd, resp, ct, wr, co, rn⟩ := net
  unfold download_model_to_path at h ⊢
  cases resp with
  | connError m => simp at h
  | status code =>
    by_cases hs : 200 ≤ code ∧ code < 300
    · by_cases hct : ct = true
      · cases co with
        | error e => simp [hs, hct] at h
        | ok u =>
          by_cases hw : wr = 0
          · simp [hs, hct, hw] at h
          · by_cases hrn : rn = true
            · simp [hs, hct, hw, hrn, removeFile, FsState.set, htmp]
            · simp [hs, hct, hw, hrn] at h
      · simp [hs, hct] at h
    · by_cases h4 : code = 401 ∨ code = 403
      · simp [hs, h4] at h
      · by_cases h44 : code = 404 <;> simp [hs, h4, h44] at h

/-! ## C5: acquisition fast path and idempotence -/

theorem ensure_ok_exists {net : NetEnv} {fuel : Nat} {cfg : AppConfig} {fs : FsState}
    {cfg' : AppConfig} {fs' : FsState}
    (h : ensure_model_ready net fuel cfg fs = (.ok cfg', fs')) :
    model_file_exists fs' cfg'.whisper_model = true := by
  simp only [ensure_model_ready] at h
  split at h
  next h1 =>
    simp only [Prod.mk.injEq, Except.ok.injEq] at h
    obtain ⟨rfl, rfl⟩ := h
    exact h1
  next h1 =>
    split at h
    next => simp at h
    next h2 =>
      split at h
      next h3 =>
        simp only [Prod.mk.injEq, Except.ok.injEq] at h
        obtain ⟨rfl, rfl⟩ := h
        simpa using h3
      next h3 =>
        split at h
        next => simp at h
        next h4 =>
          split at h
          next e heq => simp at h
          next fsL heq =>
            split at h
            next h5 =>
              simp only [Prod.mk.injEq, Except.ok.injEq] at h
              obtain ⟨rfl, rfl⟩ := h
              unfold model_file_exists at h5 ⊢
              rw [removeFile_other fsL (Ne.symm (lock_path_ne _))]
              simpa using h5
            next h5 =>
              split at h
              next e fs2 heq2 => simp at h
              next u fs2 heq2 =>
                simp only [Prod.mk.injEq, Except.ok.injEq] at h
                obtain ⟨rfl, rfl⟩ := h
                have hok : (download_model_to_path net cfg (model_target_path cfg) fsL).1 =
                    .ok () := by rw [heq2]
                obtain ⟨hinst, hw⟩ := download_ok_installs hok
                rw [heq2] at hinst
                unfold model_file_exists
                rw [removeFile_other fs2 (Ne.symm (lock_path_ne _))]
                simp only at hinst ⊢
                rw [hinst]
                simp [Nat.pos_of_ne_zero hw]

/-- C5: when the configured model path already points at a non-empty readable
file, `ensure_model_ready` returns immediately with the path and filesystem
unchanged for every network environment (no network access, no lock
creation); a successful acquisition always leaves the model present at the
returned path, so a second call with the same inputs returns immediately via
that existence fast path. -/
theorem acquisition_idempotent :
    (∀ (net : NetEnv) (fuel : Nat) (cfg : AppConfig) (fs : FsState),
      model_file_exists fs cfg.whisper_model = true →
      ensure_model_ready net fuel cfg fs = (.ok cfg, fs)) ∧
    (∀ (net : NetEnv) (fuel : Nat) (cfg : AppConfig) (fs : FsState) cfg' fs',
      ensure_model_ready net fuel cfg fs = (.ok cfg', fs') →
      model_file_exists fs' cfg'.whisper_model = true) ∧
    (∀ (net net' : NetEnv) (fuel fuel' : Nat) (cfg : AppConfig) (fs : FsState) cfg' fs',
      ensure_model_ready net fuel cfg fs = (.ok cfg', fs') →
      ensure_model_ready net' fuel' cfg' fs' = (.ok cfg', fs')) := by
  have fast : ∀ (net : NetEnv) (fuel : Nat) (cfg : AppConfig) (fs : FsState),
      model_file_exists fs cfg.whisper_model = true →
      ensure_model_ready net fuel cfg fs = (.ok cfg, fs) := by
    intro net fuel cfg fs h
    simp [ensure_model_ready, h]
  refine ⟨fast, fun _ _ _ _ _ _ h => ensure_ok_exists h, ?_⟩
  intro net net' fuel fuel' cfg fs cfg' fs' h
  exact fast net' fuel' cfg' fs' (ensure_ok_exists h)

/-- Witness for C5: with the model file already present, acquisition returns
the unchanged config and filesystem. -/
theorem acquisition_idempotent_witness :
    ensure_model_ready netOk 480 cfgExplicit fsWithModel = (.ok cfgExplicit, fsWithModel) :=
  acquisition_idempotent.1 netOk 480 cfgExplicit fsWithModel (by decide)

/-! ## C6: download staging and atomic install -/

/-- C6 (amended): provided the temporary path — the target with its
extension replaced by `part` — differs from the target path, the download
writes the body only to that temporary sibling and to the target; an empty
completed temporary file is deleted and the download fails with the target
untouched; a non-empty temporary file is installed at the target by the
single final rename; and no error path ever changes the target path's
content. -/
theorem download_atomic (net : NetEnv) (cfg : AppConfig) (target : String)
    (fs : FsState) (htmp : with_extension_part target ≠ target) :
    (∀ e, (download_model_to_path net cfg target fs).1 = .error e →
      (download_model_to_path net cfg target fs).2.files target = fs.files target) ∧
    (∀ p, p ≠ with_extension_part target → p ≠ target →
      (download_model_to_path net cfg target fs).2.files p = fs.files p) ∧
    (∀ code, net.response = .status code → 200 ≤ code → code < 300 →
      net.createTmpOk = true → net.copyOk = .ok () → net.written = 0 →
      (∃ e, (download_model_to_path net cfg target fs).1 = .error e) ∧
      (download_model_to_path net cfg target fs).2.files (with_extension_part target) = none ∧
      (download_model_to_path net cfg target fs).2.files target = fs.files target) ∧
    ((download_model_to_path net cfg target fs).1 = .ok () →
      (download_model_to_path net cfg target fs).2.files target = some net.written ∧
      net.written ≠ 0 ∧
      (download_model_to_path net cfg target fs).2.files (with_extension_part target) = none) := by
  refine ⟨fun e h => download_error_target htmp e h,
    fun p hp1 hp2 => download_touches net cfg target fs p hp1 hp2, ?_, ?_⟩
  · intro code hresp h200 h300 hct hco hw
    obtain ⟨cd, resp, ct, wr, co, rn⟩ := net
    simp only at hresp hct hco hw
    subst hresp hct hco hw
    have hs : 200 ≤ code ∧ code < 300 := ⟨h200, h300⟩
    refine ⟨⟨"downloaded empty model file from " ++
        hf_resolve_url cfg.whisper_hf_repo cfg.whisper_hf_filename ++
        "; refusing to continue", ?_⟩, ?_, ?_⟩ <;>
      simp [download_model_to_path, hs, removeFile, FsState.set, Ne.symm htmp]
  · intro h
    obtain ⟨ht, hw⟩ := download_ok_installs h
    exact ⟨ht, hw, download_ok_tmp_removed htmp h⟩

/-- Witness for C6: a successful 9-byte download installs the file at the
target and leaves no temporary file behind. -/
theorem download_atomic_witness :
    (download_model_to_path netOk cfgExplicit "/cache/model.bin" fsEmpty).2.files
        "/cache/model.bin" = some netOk.written ∧
    netOk.written ≠ 0 ∧
    (download_model_to_path netOk cfgExplicit "/cache/model.bin" fsEmpty).2.files
      (with_extension_part "/cache/model.bin") = none :=
  (download_atomic netOk cfgExplicit "/cache/model.bin" fsEmpty (by decide)).2.2.2 (by decide)

/-- Counterexample for C6 as stated: when the configured target path already
ends in the `part` extension, the derived temporary path equals the target
itself, so the body is streamed directly at the target path and a failed
copy leaves a partial download observable there. -/
theorem download_atomic_cex :
    with_extension_part "/cache/model.part" = "/cache/model.part" ∧
    (download_model_to_path netCopyFail cfgExplicit "/cache/model.part" fsEmpty).1 =
      .error "failed writing downloaded model to /cache/model.part: connection reset" ∧
    fsEmpty.files "/cache/model.part" = none ∧
    (download_model_to_path netCopyFail cfgExplicit "/cache/model.part" fsEmpty).2.files
      "/cache/model.part" = some 5 := by
  exact ⟨by decide, by decide, by decide, by decide⟩

/-! ## Decode-parameter lemmas -/

theorem fallback_keeps_prompt_temp_task (req : TranscribeRequest) :
    (fallbackParams req).language = some "en" ∧
    (fallbackParams req).detectLanguage = false ∧
    (fallbackParams req).initialPrompt = (primaryParams req).initialPrompt ∧
    (fallbackParams req).temperature = (primaryParams req).temperature ∧
    (fallbackParams req).translate = (primaryParams req).translate := by
  unfold fallbackParams primaryParams applyTask applyTemperature applyPrompt applyLanguagePolicy
  cases hl : req.language <;> cases hp : req.prompt <;> cases ht : req.temperature <;>
    simp [FullParams.base] <;> split_ifs <;> simp

theorem post_language_policy (req : TranscribeRequest) (p : FullParams) :
    (applyTask req (applyTemperature req (applyPrompt req p))).language = p.language ∧
    (applyTask req (applyTemperature req (applyPrompt req p))).detectLanguage =
      p.detectLanguage := by
  unfold applyTask applyTemperature applyPrompt
  cases hp : req.prompt <;> cases ht : req.temperature <;> simp <;> split_ifs <;> simp

/-! ## C1: the empty-output English fallback pass -/

/-- C1: when pass 1 reports zero segments and no language hint was supplied,
the second decode runs with language pinned to English and unchanged
prompt/temperature/task, and a non-empty second result unconditionally
replaces the first, the run continuing at the third-pass gate with the
replacement; when a hint was supplied or pass 1 reported a segment, the run
continues at the third-pass gate directly on the pass-1 result and the
English fallback pass never runs. -/
theorem empty_fallback_pass (engine : WhisperEngine) (req : TranscribeRequest)
    (out1 : WhisperOutput) (c1 : Nat) (s1 : List TranscriptSegment)
    (h0 : engine.full 0 (primaryParams req) req.audio_16khz_mono_f32 = .ok out1)
    (hx : extract_segments out1 = .ok (c1, s1)) :
    ((fallbackParams req).language = some "en" ∧
      (fallbackParams req).detectLanguage = false ∧
      (fallbackParams req).initialPrompt = (primaryParams req).initialPrompt ∧
      (fallbackParams req).temperature = (primaryParams req).temperature ∧
      (fallbackParams req).translate = (primaryParams req).translate) ∧
    (c1 = 0 → req.language = none →
      ∀ out2 c2 s2,
        engine.full 1 (fallbackParams req) req.audio_16khz_mono_f32 = .ok out2 →
        extract_segments out2 = .ok (c2, s2) → 0 < c2 →
        run_whisper_rs engine req = passThree engine req 2 c2 s2 out2) ∧
    ((req.language ≠ none ∨ c1 ≠ 0) →
      run_whisper_rs engine req = passThree engine req 1 c1 s1 out1) := by
  refine ⟨fallback_keeps_prompt_temp_task req, ?_, ?_⟩
  · intro hc hl out2 c2 s2 h2 hx2 hpos
    simp only [run_whisper_rs, h0, hx]
    have hcond : c1 = 0 ∧ req.language = none := ⟨hc, hl⟩
    simp only [passTwo, hcond, and_self, if_true, h2, hx2]
    rw [if_pos hpos]
  · intro hor
    have hcond : ¬(c1 = 0 ∧ req.language = none) := by
      rintro ⟨rfl, hl⟩
      rcases hor with h | h
      · exact h hl
      · exact h rfl
    simp only [run_whisper_rs, h0, hx, passTwo]
    rw [if_neg hcond]

/-- Witness for C1: with no hint and an empty primary pass, the English
fallback's single segment replaces the result and the run proceeds to the
third-pass gate with it. -/
theorem empty_fallback_pass_witness :
    (fallbackParams c1req).language = some "en" ∧
    run_whisper_rs c1eng c1req = passThree c1eng c1req 2 1 [⟨0, 100, "hi"⟩] outHi := by
  refine ⟨(empty_fallback_pass c1eng c1req outEmpty 0 [] rfl (by decide)).1.1, ?_⟩
  exact (empty_fallback_pass c1eng c1req outEmpty 0 [] rfl (by decide)).2.1 rfl rfl
    outHi 1 [⟨0, 100, "hi"⟩] rfl (by decide) (by decide)

/-! ## Shape of a successful run -/

theorem aggressiveStage_ok_shape {engine : WhisperEngine} {req : TranscribeRequest}
    {callIdx : Nat} {segs : List TranscriptSegment} {res : TranscriptResult}
    (h : aggressiveStage engine req callIdx segs = .ok res) :
    ∃ out3 c3 s3,
      engine.full callIdx (aggressiveParams req) req.audio_16khz_mono_f32 = .ok out3 ∧
      extract_segments out3 = .ok (c3, s3) ∧
      (res = finalize engine req s3 out3 ∨ res = finalize engine req segs out3) := by
  unfold aggressiveStage at h
  split at h
  · simp at h
  next out3 heq =>
    split at h
    · simp at h
    next c3 s3 heq2 =>
      refine ⟨out3, c3, s3, heq, heq2, ?_⟩
      split at h
      · exact Or.inl (Except.ok.inj h).symm
      · exact Or.inr (Except.ok.inj h).symm

theorem passThree_ok_shape {engine : WhisperEngine} {req : TranscribeRequest}
    {callIdx count : Nat} {segs : List TranscriptSegment} {lastOut : WhisperOutput}
    {res : TranscriptResult}
    (h : passThree engine req callIdx count segs lastOut = .ok res) :
    res = finalize engine req segs lastOut ∨
    ∃ out3 c3 s3,
      engine.full callIdx (aggressiveParams req) req.audio_16khz_mono_f32 = .ok out3 ∧
      extract_segments out3 = .ok (c3, s3) ∧
      (res = finalize engine req s3 out3 ∨ res = finalize engine req segs out3) := by
  unfold passThree at h
  split at h
  · exact Or.inr (aggressiveStage_ok_shape h)
  · exact Or.inl (Except.ok.inj h).symm

theorem passThree_provenance {engine : WhisperEngine} {req : TranscribeRequest}
    {callIdx count : Nat} {segs : List TranscriptSegment} {lastOut : WhisperOutput}
    {res : TranscriptResult}
    (h : passThree engine req callIdx count segs lastOut = .ok res)
    (hprov : ∃ i p out c, engine.full i p req.audio_16khz_mono_f32 = .ok out ∧
      extract_segments out = .ok (c, segs)) :
    ∃ segs' lastOut', res = finalize engine req segs' lastOut' ∧
      ∃ i p out c, engine.full i p req.audio_16khz_mono_f32 = .ok out ∧
        extract_segments out = .ok (c, segs') := by
  rcases passThree_ok_shape h with h1 | ⟨out3, c3, s3, h3, hx3, h1 | h1⟩
  · exact ⟨segs, lastOut, h1, hprov⟩
  · exact ⟨s3, out3, h1, callIdx, aggressiveParams req, out3, c3, h3, hx3⟩
  · exact ⟨segs, out3, h1, hprov⟩

theorem passTwo_ok_shape {engine : WhisperEngine} {req : TranscribeRequest}
    {c1 : Nat} {s1 : List TranscriptSegment} {out1 : WhisperOutput}
    {res : TranscriptResult}
    (h : passTwo engine req c1 s1 out1 = .ok res)
    (hprov1 : ∃ i p out c, engine.full i p req.audio_16khz_mono_f32 = .ok out ∧
      extract_segments out = .ok (c, s1)) :
    ∃ segs' lastOut', res = finalize engine req segs' lastOut' ∧
      ∃ i p out c, engine.full i p req.audio_16khz_mono_f32 = .ok out ∧
        extract_segments out = .ok (c, segs') := by
  unfold passTwo at h
  split at h
  · split at h
    · simp at h
    next out2 heq2 =>
      split at h
      · simp at h
      next c2 s2 heq3 =>
        split at h
        · exact passThree_provenance h ⟨1, fallbackParams req, out2, c2, heq2, heq3⟩
        · exact passThree_provenance h hprov1
  · exact passThree_provenance h hprov1

theorem run_ok_shape {engine : WhisperEngine} {req : TranscribeRequest}
    {res : TranscriptResult} (h : run_whisper_rs engine req = .ok res) :
    ∃ segs lastOut, res = finalize engine req segs lastOut ∧
      ∃ i p out c, engine.full i p req.audio_16khz_mono_f32 = .ok out ∧
        extract_segments out = .ok (c, segs) := by
  unfold run_whisper_rs at h
  split at h
  · simp at h
  next out1 heq1 =>
    split at h
    · simp at h
    next c1 s1 heq2 =>
      exact passTwo_ok_shape h ⟨0, primaryParams req, out1, c1, heq1, heq2⟩

/-! ## C10: whitespace-only language hints -/

/-- C10: a present but whitespace-only language hint counts as a supplied
language for control flow — no language is pinned and auto-detection stays
off in the decode options, the empty-output English fallback pass is
suppressed, and the hint is echoed back verbatim as the result language. -/
theorem blank_language_hint (engine : WhisperEngine) (req : TranscribeRequest)
    (lang : String) (hl : req.language = some lang) (ht : rustTrim lang = "") :
    (primaryParams req).language = none ∧
    (primaryParams req).detectLanguage = false ∧
    (aggressiveParams req).language = none ∧
    (aggressiveParams req).detectLanguage = false ∧
    (∀ out1 c1 s1,
      engine.full 0 (primaryParams req) req.audio_16khz_mono_f32 = .ok out1 →
      extract_segments out1 = .ok (c1, s1) →
      run_whisper_rs engine req = passThree engine req 1 c1 s1 out1) ∧
    (∀ res, run_whisper_rs engine req = .ok res → res.language = some lang) := by
  have hpol : ∀ p : FullParams, applyLanguagePolicy req p = p := by
    intro p
    unfold applyLanguagePolicy
    rw [hl]
    simp [ht]
  refine ⟨?_, ?_, ?_, ?_, ?_, ?_⟩
  · rw [primaryParams, hpol]
    exact (post_language_policy req FullParams.base).1
  · rw [primaryParams, hpol]
    exact (post_language_policy req FullParams.base).2
  · rw [aggressiveParams, hpol]
    exact (post_language_policy req _).1
  · rw [aggressiveParams, hpol]
    exact (post_language_policy req _).2
  · intro out1 c1 s1 h0 hx
    have hcond : ¬(c1 = 0 ∧ req.language = none) := by
      rintro ⟨-, hnone⟩
      rw [hl] at hnone
      cases hnone
    simp only [run_whisper_rs, h0, hx, passTwo]
    rw [if_neg hcond]
  · intro res hres
    obtain ⟨segs, lastOut, rfl, -⟩ := run_ok_shape hres
    simp [finalize, hl]

/-- Witness for C10: the hint `"  "` suppresses the fallback pass and is
echoed back verbatim. -/
theorem blank_language_hint_witness :
    (primaryParams c10req).language = none ∧
    run_whisper_rs c10eng c10req =
      passThree c10eng c10req 1 1 [⟨0, 100, "hi"⟩] outHi := by
  refine ⟨(blank_language_hint c10eng c10req "  " rfl (by decide)).1, ?_⟩
  exact (blank_language_hint c10eng c10req "  " rfl (by decide)).2.2.2.2.1
    outHi 1 [⟨0, 100, "hi"⟩] rfl (by decide)

/-! ## C3: the quality-score comparison -/

/-- C3 (amended): the aggressive candidate replaces the current best exactly
when its transcript score — the UTF-8 byte length (Rust `String::len`) of
the whitespace-normalized joined transcript text, not its character count —
is strictly greater than the current best's; on ties the earlier result is
kept. -/
theorem aggressive_score_comparison (engine : WhisperEngine) (req : TranscribeRequest)
    (callIdx count : Nat) (segs : List TranscriptSegment)
    (lastOut out3 : WhisperOutput) (c3 : Nat) (s3 : List TranscriptSegment)
    (hb : looks_like_non_speech_only segs = true)
    (h3 : engine.full callIdx (aggressiveParams req) req.audio_16khz_mono_f32 = .ok out3)
    (hx3 : extract_segments out3 = .ok (c3, s3)) :
    (transcript_score segs < transcript_score s3 →
      passThree engine req callIdx count segs lastOut = .ok (finalize engine req s3 out3)) ∧
    (transcript_score s3 ≤ transcript_score segs →
      passThree engine req callIdx count segs lastOut =
        .ok (finalize engine req segs out3)) := by
  constructor
  · intro hsc
    simp only [passThree, hb, if_true, aggressiveStage, h3, hx3]
    rw [if_pos hsc]
  · intro hsc
    simp only [passThree, hb, if_true, aggressiveStage, h3, hx3]
    rw [if_neg (Nat.not_lt.mpr hsc)]

/-- Witness for C3 (amended): an aggressive candidate with byte score 2
against a bracketed best with byte score 5 is discarded and the earlier
result kept. -/
theorem aggressive_score_comparison_witness :
    passThree c3weng c3req 1 1 [⟨0, 100, "(abc)"⟩] outParenAbc =
      .ok (finalize c3weng c3req [⟨0, 100, "(abc)"⟩] outHi) :=
  (aggressive_score_comparison c3weng c3req 1 1 [⟨0, 100, "(abc)"⟩] outParenAbc outHi
    1 [⟨0, 100, "hi"⟩] (by decide) rfl (by decide)).2 (by decide)

/-- Counterexample for C3 as stated: with current best `"(abc)"` (5
characters) the aggressive candidate `"ééé"` (3 characters but 6 UTF-8
bytes) replaces it, although its character-length score is strictly
smaller. -/
theorem aggressive_score_cex :
    spec_char_score [⟨0, 100, "ééé"⟩] < spec_char_score [⟨0, 100, "(abc)"⟩] ∧
    run_whisper_rs c3eng c3req =
      .ok ⟨"ééé", some "zz", [⟨0, 100, "ééé"⟩]⟩ :=
  ⟨by decide, by decide⟩

/-! ## String lemmas for the emptiness characterization -/

theorem dropWhile_ne_head (p : Char → Bool) (l : List Char) (h : l.dropWhile p ≠ []) :
    ∃ c cs, l.dropWhile p = c :: cs ∧ p c = false :=
  ⟨(l.dropWhile p).head h, (l.dropWhile p).tail,
    ((l.dropWhile p).head_cons_tail h).symm, List.head_dropWhile_not p l h⟩

theorem trimChars_has_nonws {l : List Char} (h : trimChars l ≠ []) :
    ∃ c, c ∈ trimChars l ∧ c.isWhitespace = false := by
  unfold trimChars at h ⊢
  rcases dropWhile_ne_head Char.isWhitespace (l.dropWhile Char.isWhitespace).reverse
      (fun hn => h (by rw [hn]; rfl)) with ⟨c, cs, hcons, hws⟩
  refine ⟨c, ?_, hws⟩
  rw [List.mem_reverse, hcons]
  exact List.mem_cons_self c cs

theorem wordsAux_ne_of_acc (l : List Char) : ∀ acc, acc ≠ [] → wordsAux l acc ≠ [] := by
  induction l with
  | nil =>
    intro acc h
    simp [wordsAux, h]
  | cons c cs ih =>
    intro acc h
    unfold wordsAux
    by_cases hc : c.isWhitespace = true
    · rw [if_pos hc, if_neg h]
      simp
    · rw [if_neg hc]
      exact ih (c :: acc) (by simp)

theorem wordsAux_ne_of_mem {c : Char} (hc : c.isWhitespace = false) :
    ∀ (l acc : List Char), c ∈ l → wordsAux l acc ≠ [] := by
  intro l
  induction l with
  | nil =>
    intro acc h
    cases h
  | cons d ds ih =>
    intro acc hm
    unfold wordsAux
    by_cases hd : d.isWhitespace = true
    · have hcd : c ≠ d := by
        intro he
        rw [he, hd] at hc
        cases hc
      have hmem : c ∈ ds := by
        rcases List.mem_cons.mp hm with h | h
        · exact absurd h hcd
        · exact h
      rw [if_pos hd]
      by_cases ha : acc = []
      · rw [if_pos ha]
        exact ih [] hmem
      · rw [if_neg ha]
        simp
    · rw [if_neg hd]
      rcases List.mem_cons.mp hm with rfl | h
      · exact wordsAux_ne_of_acc ds (c :: acc) (by simp)
      · exact ih (d :: acc) h

theorem wordsAux_elems_ne : ∀ (l acc : List Char), ∀ a ∈ wordsAux l acc, a ≠ [] := by
  intro l
  induction l with
  | nil =>
    intro acc a ha
    unfold wordsAux at ha
    split at ha
    · cases ha
    next h =>
      rcases List.mem_singleton.mp ha with rfl
      simpa using h
  | cons d ds ih =>
    intro acc a ha
    unfold wordsAux at ha
    split at ha
    · split at ha
      · exact ih [] a ha
      next h =>
        rcases List.mem_cons.mp ha with rfl | ha'
        · simpa using h
        · exact ih [] a ha'
    · exact ih (d :: acc) a ha

theorem joinSpaceChars_ne {w : List (List Char)} (hw : w ≠ [])
    (he : ∀ a ∈ w, a ≠ []) : joinSpaceChars w ≠ [] := by
  cases w with
  | nil => exact absurd rfl hw
  | cons a rest =>
    cases rest with
    | nil => simpa [joinSpaceChars] using he a (List.mem_singleton.mpr rfl)
    | cons b r => simp [joinSpaceChars]

theorem mem_joinSpaceChars {c : Char} {t : List Char} {w : List (List Char)}
    (ht : t ∈ w) (hc : c ∈ t) : c ∈ joinSpaceChars w := by
  induction w with
  | nil => cases ht
  | cons a rest ih =>
    rcases List.mem_cons.mp ht with rfl | ht'
    · cases rest with
      | nil => exact hc
      | cons b r => exact List.mem_append.mpr (Or.inl hc)
    · cases rest with
      | nil => cases ht'
      | cons b r =>
        show c ∈ a ++ ' ' :: joinSpaceChars (b :: r)
        exact List.mem_append.mpr (Or.inr (List.mem_cons_of_mem _ (ih ht')))

theorem normalize_text_ne {s : String} {c : Char} (hc : c ∈ s.data)
    (hw : c.isWhitespace = false) : normalize_text s ≠ "" := by
  unfold normalize_text
  intro h
  have hdata : joinSpaceChars (wordsAux s.data []) = [] := congrArg String.data h
  exact joinSpaceChars_ne (wordsAux_ne_of_mem hw s.data [] hc)
    (wordsAux_elems_ne s.data []) hdata

/-! ## Extraction postconditions -/

theorem extractLoop_texts {out : WhisperOutput} :
    ∀ (idxs : List Nat) (segs : List TranscriptSegment),
      extractLoop out idxs = .ok segs →
      ∀ seg ∈ segs, (∃ raw, seg.text = rustTrim raw) ∧ seg.text ≠ "" := by
  intro idxs
  induction idxs with
  | nil =>
    intro segs h seg hm
    unfold extractLoop at h
    obtain rfl := (Except.ok.inj h)
    cases hm
  | cons i rest ih =>
    intro segs h seg hm
    unfold extractLoop at h
    split at h
    · exact ih segs h seg hm
    next sg heq =>
      split at h
      · cases h
      next raw heq2 =>
        dsimp only at h
        split at h
        · exact ih segs h seg hm
        next hne =>
          cases hrec : extractLoop out rest with
          | error e =>
            rw [hrec] at h
            cases h
          | ok l =>
            rw [hrec] at h
            simp only [Except.map] at h
            obtain rfl := (Except.ok.inj h)
            rcases List.mem_cons.mp hm with rfl | hm'
            · exact ⟨⟨raw, rfl⟩, hne⟩
            · exact ih l hrec seg hm'

theorem extract_segments_ok {out : WhisperOutput} {c : Nat}
    {segs : List TranscriptSegment} (h : extract_segments out = .ok (c, segs)) :
    extractLoop out (List.range out.fullNSegments) = .ok segs ∧
      c = out.fullNSegments := by
  unfold extract_segments at h
  cases hrec : extractLoop out (List.range out.fullNSegments) with
  | error e =>
    rw [hrec] at h
    cases h
  | ok l =>
    rw [hrec] at h
    simp only [Except.map, Except.ok.injEq, Prod.mk.injEq] at h
    obtain ⟨hc, hl⟩ := h
    exact ⟨by rw [hl], hc.symm⟩

theorem joined_text_ne {s : List TranscriptSegment} (hne : s ≠ [])
    (hts : ∀ seg ∈ s, (∃ raw, seg.text = rustTrim raw) ∧ seg.text ≠ "") :
    normalize_text (joinSpace (s.map TranscriptSegment.text)) ≠ "" := by
  cases s with
  | nil => exact absurd rfl hne
  | cons seg rest =>
    obtain ⟨⟨raw, hraw⟩, hne'⟩ := hts seg (List.mem_cons_self _ _)
    have hdata : seg.text.data = trimChars raw.data := by
      rw [hraw]
      rfl
    have hdne : trimChars raw.data ≠ [] := by
      intro h0
      apply hne'
      rw [hraw]
      unfold rustTrim
      rw [h0]
    obtain ⟨c, hcmem, hcws⟩ := trimChars_has_nonws hdne
    rw [← hdata] at hcmem
    have hmem : c ∈ (joinSpace ((seg :: rest).map TranscriptSegment.text)).data := by
      unfold joinSpace
      show c ∈ joinSpaceChars (((seg :: rest).map TranscriptSegment.text).map String.data)
      refine mem_joinSpaceChars ?_ hcmem
      simp
    exact normalize_text_ne hmem hcws

/-! ## C9: finalization -/

theorem aggressiveStage_total {engine : WhisperEngine} {req : TranscribeRequest}
    {callIdx : Nat} (segs : List TranscriptSegment)
    (h3 : ∃ out c s,
      engine.full callIdx (aggressiveParams req) req.audio_16khz_mono_f32 = .ok out ∧
      extract_segments out = .ok (c, s)) :
    ∃ res, aggressiveStage engine req callIdx segs = .ok res := by
  obtain ⟨out3, c3, s3, h3, hx3⟩ := h3
  by_cases hsc : transcript_score segs < transcript_score s3
  · refine ⟨finalize engine req s3 out3, ?_⟩
    simp only [aggressiveStage, h3, hx3]
    rw [if_pos hsc]
  · refine ⟨finalize engine req segs out3, ?_⟩
    simp only [aggressiveStage, h3, hx3]
    rw [if_neg hsc]

theorem passThree_total {engine : WhisperEngine} {req : TranscribeRequest}
    {callIdx count : Nat} {segs : List TranscriptSegment} {lastOut : WhisperOutput}
    (h3 : ∃ out c s,
      engine.full callIdx (aggressiveParams req) req.audio_16khz_mono_f32 = .ok out ∧
      extract_segments out = .ok (c, s)) :
    ∃ res, passThree engine req callIdx count segs lastOut = .ok res := by
  by_cases hl : looks_like_non_speech_only segs = true
  · have := aggressiveStage_total segs h3
    simpa [passThree, hl] using this
  · exact ⟨finalize engine req segs lastOut, by simp [passThree, hl]⟩

/-- C9: every successful run's final text is the whitespace-collapsed
space-join of its final segments' texts; the final segments are verbatim the
extraction of one actually executed decode pass (never re-ordered, never
truncated); the final text is empty exactly when there are no final
segments; and an engine that always decodes successfully always yields a
successful result — empty output included — rather than an error. -/
theorem finalize_text_normalized (engine : WhisperEngine) (req : TranscribeRequest) :
    (∀ res, run_whisper_rs engine req = .ok res →
      res.text = normalize_text (joinSpace (res.segments.map TranscriptSegment.text))) ∧
    (∀ res, run_whisper_rs engine req = .ok res →
      ∃ i p out c, engine.full i p req.audio_16khz_mono_f32 = .ok out ∧
        extract_segments out = .ok (c, res.segments)) ∧
    (∀ res, run_whisper_rs engine req = .ok res →
      (res.text = "" ↔ res.segments = [])) ∧
    ((∀ i p, ∃ out c s, engine.full i p req.audio_16khz_mono_f32 = .ok out ∧
        extract_segments out = .ok (c, s)) →
      ∃ res, run_whisper_rs engine req = .ok res) := by
  refine ⟨?_, ?_, ?_, ?_⟩
  · intro res h
    obtain ⟨segs, lastOut, rfl, -⟩ := run_ok_shape h
    simp [finalize]
  · intro res h
    obtain ⟨segs, lastOut, rfl, hprov⟩ := run_ok_shape h
    simpa [finalize] using hprov
  · intro res h
    obtain ⟨segs, lastOut, rfl, i, p, out, c, hfull, hx⟩ := run_ok_shape h
    simp only [finalize]
    constructor
    · intro htext
      by_contra hne
      exact joined_text_ne hne
        (extractLoop_texts _ segs (extract_segments_ok hx).1) htext
    · rintro rfl
      rfl
  · intro hE
    obtain ⟨out1, c1, s1, h1, hx1⟩ := hE 0 (primaryParams req)
    have h3total : ∀ callIdx count segs lastOut, ∃ res,
        passThree engine req callIdx count segs lastOut = .ok res :=
      fun callIdx count segs lastOut =>
        passThree_total (hE callIdx (aggressiveParams req))
    simp only [run_whisper_rs, h1, hx1]
    unfold passTwo
    by_cases hcond : c1 = 0 ∧ req.language = none
    · rw [if_pos hcond]
      obtain ⟨out2, c2, s2, h2, hx2⟩ := hE 1 (fallbackParams req)
      simp only [h2, hx2]
      by_cases hp : 0 < c2
      · rw [if_pos hp]
        exact h3total 2 c2 s2 out2
      · rw [if_neg hp]
        exact h3total 2 c1 s1 out2
    · rw [if_neg hcond]
      exact h3total 1 c1 s1 out1

/-- Witness for C9: a concrete successful run whose text is the normalized
join of its single segment, obtained through the theorem at a concrete
engine. -/
theorem finalize_text_normalized_witness :
    (⟨"hi", some "en", [⟨0, 100, "hi"⟩]⟩ : TranscriptResult).text =
      normalize_text (joinSpace (([⟨0, 100, "hi"⟩] :
        List TranscriptSegment).map TranscriptSegment.text)) ∧
    ∃ res, run_whisper_rs c9eng c2req = .ok res := by
  constructor
  · exact (finalize_text_normalized c9eng c2req).1 _ (by decide)
  · refine (finalize_text_normalized c9eng c2req).2.2.2 ?_
    intro i p
    by_cases hi : i = 0
    · subst hi
      exact ⟨outHi, 1, [⟨0, 100, "hi"⟩], rfl, by decide⟩
    · refine ⟨outEmpty, 0, [], ?_, by decide⟩
      show c9eng.full i p c2req.audio_16khz_mono_f32 = .ok outEmpty
      simp [c9eng, hi]
